import Mathlib

/-!
Shallow embedding of the calendar-booking core of `backend/main.py`
(class `GoogleCalendarService`, the helper `generate_recurring_dates`, and
the tool functions `find_next_available_slot`, `suggest_time_slots`,
`book_appointment`, `book_recurring_appointment`).

Modelling conventions:
* Instants are integer minutes.  Local calendar days are absolute day
  numbers where day 0 falls on a Monday, so `d % 7` is exactly Python's
  `date.weekday()` (0 = Monday, ..., 6 = Sunday), and a local instant `t`
  (in minutes) lies on day `t / 1440`, at hour `t % 1440 / 60` and minute
  `t % 60`.
* The configured timezone `Asia/Kolkata` is a fixed offset of +330 minutes
  from UTC with no daylight saving, so `astimezone(pytz.utc)` is the
  subtraction of 330 minutes.
* The Google Calendar provider is abstract: `events().list` is a function
  from a UTC time range to either a list of events or a raised exception
  (`ProviderResp.err`), and `events().insert` either returns an event id or
  raises (modelled as `none`).  The two while loops are translated with a
  fuel argument; the `*_stable` theorems below show the result is
  independent of the fuel once it covers the loop bound, so the fuel values
  chosen in the wrappers realize the source's `while` loops exactly.
-/

namespace Kautios

/-- Configuration constant WORK_HOURS_START from main.py. -/
def WORK_HOURS_START : Nat := 9

/-- Configuration constant WORK_HOURS_END from main.py. -/
def WORK_HOURS_END : Nat := 17

/-- Configuration constant SEARCH_LIMIT_DAYS from main.py. -/
def SEARCH_LIMIT_DAYS : Nat := 30

/-- Fixed UTC offset of the configured timezone Asia/Kolkata, in minutes. -/
def TZ_OFFSET_MIN : Int := 330

/-- Convert a local instant (minutes) to UTC minutes
(`.astimezone(pytz.utc)` under the fixed offset). -/
def toUTC (localMin : Int) : Int := localMin - TZ_OFFSET_MIN

/-- Outcome of the provider call `events().list(...)`: a list of events
(busy intervals, as half-open UTC minute ranges) on success, or a raised
exception (network/auth failure). -/
inductive ProviderResp where
  | ok (items : List (Int × Int))
  | err
deriving DecidableEq

/-- `GoogleCalendarService.check_availability`: returns `False` when the
service is not initialized; otherwise queries the provider for the events
in the given UTC range and returns whether the result list is empty; a
raised provider exception is caught and absorbed into `False`. -/
def check_availability (service : Bool) (provider : Int → Int → ProviderResp)
    (start_time_utc end_time_utc : Int) : Bool :=
  if service then
    match provider start_time_utc end_time_utc with
    | ProviderResp.ok items => items.length == 0
    | ProviderResp.err => false
  else false

/-- Provider list semantics for a calendar holding the given busy intervals
(half-open UTC minute ranges): `events().list` with `timeMin`/`timeMax`
returns the events that overlap the queried range
(`event.start < timeMax` and `timeMin < event.end`). -/
def listEvents (busy : List (Int × Int)) (timeMin timeMax : Int) :
    List (Int × Int) :=
  busy.filter (fun b => decide (b.1 < timeMax ∧ timeMin < b.2))

/-- A provider whose calendar contains exactly the given busy intervals and
whose list calls never fail. -/
def busyProvider (busy : List (Int × Int)) : Int → Int → ProviderResp :=
  fun timeMin timeMax => ProviderResp.ok (listEvents busy timeMin timeMax)

/-- `GoogleCalendarService.create_event`: `None` when the service is missing
or when the `events().insert` call raises; otherwise the created event,
represented by its id. -/
def create_event (service : Bool) (insert : Int → Int → Option Nat)
    (start_time_utc end_time_utc : Int) : Option Nat :=
  if service then insert start_time_utc end_time_utc else none

/-- One concrete occurrence produced by `generate_recurring_dates`:
the calendar date (absolute day number) plus the UTC start/end instants
(the source also carries display strings derived from the same data). -/
structure Occ where
  date : Nat
  start_utc : Int
  end_utc : Int
deriving DecidableEq

/-- Failure reason recorded by `create_multiple_events`
(`'Time slot not available'` or `'Failed to create event'`). -/
inductive FailReason where
  | notAvailable
  | createFailed
deriving DecidableEq

/-- Entry of the `created_events` list: the occurrence and the id returned
by the provider. -/
structure CreatedEntry where
  occ : Occ
  event_id : Nat
deriving DecidableEq

/-- Entry of the `failed_events` list: the occurrence and the reason. -/
structure FailedEntry where
  occ : Occ
  reason : FailReason
deriving DecidableEq

/-- `GoogleCalendarService.create_multiple_events` on an initialized
service (its only caller, `book_recurring_appointment`, has already
returned with an error if `self.service` is missing).  The source's loop
appends to `created_events`/`failed_events` in iteration order; the
recursion below conses the head's outcome onto the results for the
remaining occurrences, which yields the same two lists. -/
def create_multiple_events (provider : Int → Int → ProviderResp)
    (insert : Int → Int → Option Nat) :
    List Occ → List CreatedEntry × List FailedEntry
  | [] => ([], [])
  | occ :: rest =>
    let tailRes := create_multiple_events provider insert rest
    if check_availability true provider occ.start_utc occ.end_utc then
      match create_event true insert occ.start_utc occ.end_utc with
      | some eid => (⟨occ, eid⟩ :: tailRes.1, tailRes.2)
      | none => (tailRes.1, ⟨occ, FailReason.createFailed⟩ :: tailRes.2)
    else (tailRes.1, ⟨occ, FailReason.notAvailable⟩ :: tailRes.2)

/-- Outcome of a single occurrence inside `create_multiple_events`, as an
entry of the created list (`none` when the occurrence fails). -/
def occCreated (provider : Int → Int → ProviderResp)
    (insert : Int → Int → Option Nat) (occ : Occ) : Option CreatedEntry :=
  if check_availability true provider occ.start_utc occ.end_utc then
    match create_event true insert occ.start_utc occ.end_utc with
    | some eid => some ⟨occ, eid⟩
    | none => none
  else none

/-- Outcome of a single occurrence inside `create_multiple_events`, as an
entry of the failed list (`none` when the occurrence succeeds). -/
def occFailed (provider : Int → Int → ProviderResp)
    (insert : Int → Int → Option Nat) (occ : Occ) : Option FailedEntry :=
  if check_availability true provider occ.start_utc occ.end_utc then
    match create_event true insert occ.start_utc occ.end_utc with
    | some _ => none
    | none => some ⟨occ, FailReason.createFailed⟩
  else some ⟨occ, FailReason.notAvailable⟩

/-- While loop of `GoogleCalendarService.suggest_time_slots`: a cursor
walks from the start of the working window in 30-minute steps while
`cursor + duration <= end_of_day`, appending the candidate local slot when
the availability check succeeds and breaking once 5 slots are collected.
One fuel unit is spent per iteration; `suggestGo_stable` shows any
sufficient fuel yields the while loop's value. -/
def suggestGo (provider : Int → Int → ProviderResp) (dur : Int)
    (end_of_day : Int) : Nat → Int → List (Int × Int) → List (Int × Int)
  | 0, _, acc => acc
  | fuel + 1, current, acc =>
    if current + dur ≤ end_of_day then
      let acc2 :=
        if check_availability true provider (toUTC current)
            (toUTC (current + dur)) then
          acc ++ [(current, current + dur)]
        else acc
      if 5 ≤ acc2.length then acc2
      else suggestGo provider dur end_of_day fuel (current + 30) acc2
    else acc

/-- `GoogleCalendarService.suggest_time_slots`: empty when the service is
missing; otherwise scans the working window `[9:00, 17:00)` of the given
local day.  Slots are returned as local `(start, end)` minute pairs (the
source formats the same pair into a display string). -/
def suggest_time_slots (service : Bool) (provider : Int → Int → ProviderResp)
    (day : Nat) (duration_minutes : Int) : List (Int × Int) :=
  if service then
    let start_of_day : Int := ((day * 1440 + WORK_HOURS_START * 60 : Nat) : Int)
    let end_of_day : Int := ((day * 1440 + WORK_HOURS_END * 60 : Nat) : Int)
    suggestGo provider duration_minutes end_of_day
      ((end_of_day - duration_minutes - start_of_day).toNat / 30 + 1)
      start_of_day []
  else []

/-- Hour-of-day of a local instant (Python `.hour`). -/
def hourOf (t : Nat) : Nat := t % 1440 / 60

/-- Minute-of-hour of a local instant (Python `.minute`). -/
def minuteOf (t : Nat) : Nat := t % 60

/-- Python `.weekday()` of the day containing `t` (0 = Monday). -/
def weekdayOf (t : Nat) : Nat := t / 1440 % 7

/-- Day-level skip target of the scan, i.e.
`(current_time + timedelta(days=1)).replace(hour=WORK_HOURS_START, minute=0)`:
the start hour of the next calendar day. -/
def nextDayStart (t : Nat) : Nat := (t / 1440 + 1) * 1440 + WORK_HOURS_START * 60

/-- Rounding step of `find_next_available_slot`: when the minute is not 0
or 30, snap forward to the next half-hour boundary (`replace(minute=30)`
when below 30, else the next hour's `:00`). -/
def snapHalfHour (t : Nat) : Nat :=
  if t % 60 = 0 ∨ t % 60 = 30 then t
  else if t % 60 < 30 then t - t % 60 + 30
  else t - t % 60 + 60

/-- While loop of `find_next_available_slot`: while the cursor is before
the horizon, snap it to a half-hour boundary, jump to the next day's start
hour on weekends / outside working hours, likewise when the candidate end
fails the end-of-day test (which inspects the end's own hour and minute),
otherwise query availability and return the cursor on success or advance
it by 30 minutes.  One fuel unit per iteration; `findNextGo_stable` shows
any sufficient fuel yields the while loop's value. -/
def findNextGo (provider : Int → Int → ProviderResp) (duration_minutes : Nat)
    (limit : Nat) : Nat → Nat → Option Nat
  | 0, _ => none
  | fuel + 1, current =>
    if current < limit then
      let c := snapHalfHour current
      if 5 ≤ weekdayOf c ∨ ¬(WORK_HOURS_START ≤ hourOf c ∧ hourOf c < WORK_HOURS_END) then
        findNextGo provider duration_minutes limit fuel (nextDayStart c)
      else
        let e := c + duration_minutes
        if WORK_HOURS_END < hourOf e ∨ (hourOf e = WORK_HOURS_END ∧ 0 < minuteOf e) then
          findNextGo provider duration_minutes limit fuel (nextDayStart c)
        else if check_availability true provider (toUTC c) (toUTC e) then
          some c
        else
          findNextGo provider duration_minutes limit fuel (c + 30)
    else none

/-- Result of the `find_next_available_slot` tool: the start of the found
slot, the `couldn't find any available slots` negative result, or one of
the two error strings returned before the scan starts. -/
inductive FindResult where
  | found (start : Nat)
  | notFound
  | errNotConnected
  | errNoAccess
deriving DecidableEq

/-- Tool `find_next_available_slot`: error strings when the service is not
connected or calendar access fails to validate; otherwise the bounded scan
starting at `now` (local minutes) with horizon `now + 30 days`.  The fuel
`SEARCH_LIMIT_DAYS * 1440` covers the loop because every iteration
advances the cursor by at least one minute (`findNextGo_stable`). -/
def find_next_available_slot (service access : Bool)
    (provider : Int → Int → ProviderResp) (duration_minutes : Nat)
    (now : Nat) : FindResult :=
  if service then
    if access then
      match findNextGo provider duration_minutes
          (now + SEARCH_LIMIT_DAYS * 1440) (SEARCH_LIMIT_DAYS * 1440) now with
      | some s => FindResult.found s
      | none => FindResult.notFound
    else FindResult.errNoAccess
  else FindResult.errNotConnected

/-- Result of the `book_appointment` tool (the JSON payloads of the
source, by their discriminating content). -/
inductive BookResult where
  | created (event_id : Nat)
  | errNotConnected
  | errNoAccess
  | errParse
  | errNotAvailable
  | errCreateFailed
deriving DecidableEq

/-- Result of `book_appointment` together with a trace of the provider
interactions it performed: every UTC range sent to `events().list` (via
`check_availability`) and every UTC range sent to `events().insert`. -/
structure BookTrace where
  result : BookResult
  avail_queries : List (Int × Int)
  create_calls : List (Int × Int)
deriving DecidableEq

/-- Tool `book_appointment`: guard on the connected service and on
calendar access, then on the parse result (`parsed` is `parse_time`'s
outcome, a local instant in minutes or `None`); the end is
`start + duration`; a final availability check is performed and, only when
it succeeds, the event is created. -/
def book_appointment (service access : Bool) (parsed : Option Int)
    (duration_minutes : Int) (provider : Int → Int → ProviderResp)
    (insert : Int → Int → Option Nat) : BookTrace :=
  if service then
    if access then
      match parsed with
      | none => ⟨BookResult.errParse, [], []⟩
      | some start_local =>
        let end_local := start_local + duration_minutes
        let su := toUTC start_local
        let eu := toUTC end_local
        if check_availability true provider su eu then
          match create_event true insert su eu with
          | some eid => ⟨BookResult.created eid, [(su, eu)], [(su, eu)]⟩
          | none => ⟨BookResult.errCreateFailed, [(su, eu)], [(su, eu)]⟩
        else ⟨BookResult.errNotAvailable, [(su, eu)], []⟩
    else ⟨BookResult.errNoAccess, [], []⟩
  else ⟨BookResult.errNotConnected, [], []⟩

/-- Day-by-day loop of `generate_recurring_dates`: starting from day `d`,
for `n` consecutive dates, emit one occurrence per date whose weekday is
in `weekdays`, localizing the daily start/end times of day (minutes) on
that date and converting to UTC. -/
def generateGo (weekdays : List Nat) (startT endT : Nat) : Nat → Nat → List Occ
  | _, 0 => []
  | d, n + 1 =>
    (if d % 7 ∈ weekdays then
      [⟨d, toUTC ((d * 1440 + startT : Nat) : Int),
          toUTC ((d * 1440 + endT : Nat) : Int)⟩]
    else []) ++ generateGo weekdays startT endT (d + 1) n

/-- `generate_recurring_dates`: iterate every calendar date from
`start_date` to `end_date` inclusive (the `while current_date <=
end_date_only` loop), keeping the dates whose weekday is in `weekdays`;
`startT`/`endT` are the parsed daily start/end times of day in minutes. -/
def generate_recurring_dates (start_date end_date : Nat) (weekdays : List Nat)
    (startT endT : Nat) : List Occ :=
  generateGo weekdays startT endT start_date (end_date + 1 - start_date)

/-- Result of the `book_recurring_appointment` tool (the JSON payloads of
the source, by their discriminating content). -/
inductive RecurResult where
  | success
  | errNotConnected
  | errNoAccess
  | errBadEndDate
  | errBadWeekdays
  | errBadTimeFormat
  | errNoDates
  | errAllFailed
deriving DecidableEq

/-- Result of `book_recurring_appointment` together with the occurrences
produced by `generate_recurring_dates` and the two lists returned by
`create_multiple_events`. -/
structure RecurTrace where
  result : RecurResult
  generated : List Occ
  created_events : List CreatedEntry
  failed_events : List FailedEntry
deriving DecidableEq

/-- Tool `book_recurring_appointment`: guards in source order — connected
service, calendar access, parseable end date (`end_date_parsed` is
`parse_time`'s result), non-empty parsed weekday list (`parse_weekdays`
returns `[]` when nothing is recognised), and the `strptime` format check
of the two times (`startT`/`endT` are `None` on a `ValueError`).  Note the
source validates only the format of the two times of day, never their
order.  It then generates the occurrences from today through the end date
and books them with `create_multiple_events`; `success` requires at least
one created event. -/
def book_recurring_appointment (service access : Bool)
    (end_date_parsed : Option Nat) (weekday_numbers : List Nat)
    (startT endT : Option Nat) (today : Nat)
    (provider : Int → Int → ProviderResp)
    (insert : Int → Int → Option Nat) : RecurTrace :=
  if service then
    if access then
      match end_date_parsed with
      | none => ⟨RecurResult.errBadEndDate, [], [], []⟩
      | some endDay =>
        if weekday_numbers = [] then ⟨RecurResult.errBadWeekdays, [], [], []⟩
        else
          match startT, endT with
          | some st, some et =>
            let recurring_events :=
              generate_recurring_dates today endDay weekday_numbers st et
            if recurring_events = [] then
              ⟨RecurResult.errNoDates, recurring_events, [], []⟩
            else
              let res := create_multiple_events provider insert recurring_events
              if res.1 = [] then
                ⟨RecurResult.errAllFailed, recurring_events, res.1, res.2⟩
              else ⟨RecurResult.success, recurring_events, res.1, res.2⟩
          | _, _ => ⟨RecurResult.errBadTimeFormat, [], [], []⟩
    else ⟨RecurResult.errNoAccess, [], [], []⟩
  else ⟨RecurResult.errNotConnected, [], [], []⟩

/-- Invariant of a slot emitted by the suggestion scan for the working
window `[dayStart, e]`: it starts at or after the window start, ends
exactly `dur` minutes later, by the window end, and no busy interval of
the seeded calendar overlaps its UTC image
(`listEvents` would have reported any such interval). -/
def SlotOk (busy : List (Int × Int)) (dayStart e dur : Int) (s : Int × Int) : Prop :=
  dayStart ≤ s.1 ∧ s.2 = s.1 + dur ∧ s.2 ≤ e ∧
    ∀ b ∈ busy, ¬(b.1 < toUTC s.2 ∧ toUTC s.1 < b.2)

/-- Unfolding of `create_multiple_events` as two order-preserving
filterings of the input by per-occurrence outcomes: each occurrence's fate
depends only on that occurrence (and the oracles), never on its
neighbours. -/
theorem cme_filterMap (provider : Int → Int → ProviderResp)
    (insert : Int → Int → Option Nat) (occs : List Occ) :
    create_multiple_events provider insert occs =
      (occs.filterMap (occCreated provider insert),
       occs.filterMap (occFailed provider insert)) := by
  induction occs with
  | nil => rfl
  | cons o rest ih =>
    simp only [create_multiple_events, ih, List.filterMap_cons, occCreated, occFailed]
    cases hav : check_availability true provider o.start_utc o.end_utc
    · simp [hav]
    · cases hins : create_event true insert o.start_utc o.end_utc
      · simp [hav, hins]
      · simp [hav, hins]

/-- Dates visited by the generation loop: starting at day `d` for `n`
days, the emitted occurrence dates are exactly the dates of the range
whose weekday lies in the weekday set, in the range's order. -/
theorem generateGo_map_date (wds : List Nat) (st et : Nat) :
    ∀ (n d : Nat), (generateGo wds st et d n).map Occ.date =
      (List.range' d n).filter (fun x => decide (x % 7 ∈ wds)) := by
  intro n
  induction n with
  | zero => intro d; rfl
  | succ n ih =>
    intro d
    rw [List.range'_succ]
    simp only [generateGo, List.map_append, ih, List.filter_cons]
    by_cases h : d % 7 ∈ wds
    · simp [h]
    · simp [h]

/-- Unfolding of `suggest_time_slots` on a connected service into its scan
loop with the concrete window bounds and fuel. -/
theorem suggest_time_slots_true (provider : Int → Int → ProviderResp)
    (day : Nat) (dur : Int) :
    suggest_time_slots true provider day dur =
      suggestGo provider dur ((day * 1440 + WORK_HOURS_END * 60 : Nat) : Int)
        ((((day * 1440 + WORK_HOURS_END * 60 : Nat) : Int) - dur -
          ((day * 1440 + WORK_HOURS_START * 60 : Nat) : Int)).toNat / 30 + 1)
        ((day * 1440 + WORK_HOURS_START * 60 : Nat) : Int) [] := rfl

/-- Break condition of the suggestion scan: starting below 5 collected
slots, the loop never returns more than 5. -/
theorem suggestGo_length_le (provider : Int → Int → ProviderResp) (dur e : Int) :
    ∀ (fuel : Nat) (current : Int) (acc : List (Int × Int)), acc.length < 5 →
      (suggestGo provider dur e fuel current acc).length ≤ 5 := by
  intro fuel
  induction fuel with
  | zero => intro current acc h; exact Nat.le_of_lt h
  | succ fuel ih =>
    intro current acc h
    simp only [suggestGo]
    by_cases hc : current + dur ≤ e
    · simp only [if_pos hc]
      by_cases hav : check_availability true provider (toUTC current) (toUTC (current + dur))
      · simp only [hav, if_true]
        by_cases hlen : 5 ≤ (acc ++ [(current, current + dur)]).length
        · rw [if_pos hlen]
          simp only [List.length_append, List.length_singleton]
          omega
        · simp only [if_neg hlen]
          exact ih (current + 30) _ (Nat.lt_of_not_le hlen)
      · simp only [hav, Bool.false_eq_true, if_false]
        by_cases hlen : 5 ≤ acc.length
        · exact absurd h (Nat.not_lt_of_le hlen)
        · simp only [if_neg hlen]
          exact ih (current + 30) _ (Nat.lt_of_not_le hlen)
    · simp only [if_neg hc]
      exact Nat.le_of_lt h

/-- Soundness invariant of the suggestion scan against a seeded busy
calendar: every slot it emits satisfies `SlotOk` (window containment and
zero overlap with the busy intervals). -/
theorem suggestGo_sound (busy : List (Int × Int)) (dur e dayStart : Int) :
    ∀ (fuel : Nat) (current : Int) (acc : List (Int × Int)),
      dayStart ≤ current →
      (∀ s ∈ acc, SlotOk busy dayStart e dur s) →
      ∀ s ∈ suggestGo (busyProvider busy) dur e fuel current acc,
        SlotOk busy dayStart e dur s := by
  intro fuel
  induction fuel with
  | zero => intro current acc _ hacc; exact hacc
  | succ fuel ih =>
    intro current acc hcur hacc
    simp only [suggestGo]
    by_cases hc : current + dur ≤ e
    · simp only [if_pos hc]
      by_cases hav : check_availability true (busyProvider busy) (toUTC current) (toUTC (current + dur))
      · have hnew : SlotOk busy dayStart e dur (current, current + dur) := by
          refine ⟨hcur, rfl, hc, ?_⟩
          intro b hb hover
          have hlist : listEvents busy (toUTC current) (toUTC (current + dur)) = [] := by
            have hx := hav
            simp only [check_availability, busyProvider, if_pos, beq_iff_eq,
              List.length_eq_zero] at hx
            exact hx
          have hy := List.filter_eq_nil_iff.mp hlist b hb
          simp only [decide_eq_true_eq] at hy
          exact hy hover
        have hacc2 : ∀ s ∈ acc ++ [(current, current + dur)], SlotOk busy dayStart e dur s := by
          intro s hs
          rcases List.mem_append.mp hs with hs | hs
          · exact hacc s hs
          · rcases List.mem_singleton.mp hs with rfl
            exact hnew
        simp only [hav, if_true]
        by_cases hlen : 5 ≤ (acc ++ [(current, current + dur)]).length
        · simp only [if_pos hlen]
          exact hacc2
        · simp only [if_neg hlen]
          exact ih (current + 30) _ (by omega) hacc2
      · simp only [hav, Bool.false_eq_true, if_false]
        by_cases hlen : 5 ≤ acc.length
        · simp only [if_pos hlen]
          exact hacc
        · simp only [if_neg hlen]
          exact ih (current + 30) _ (by omega) hacc
    · simp only [if_neg hc]
      exact hacc

/-- Cursor rounding never moves backwards. -/
theorem snapHalfHour_ge (t : Nat) : t ≤ snapHalfHour t := by
  simp only [snapHalfHour]
  split
  · exact le_rfl
  · split <;> omega

/-- Cursor rounding advances by less than half an hour. -/
theorem snapHalfHour_le (t : Nat) : snapHalfHour t ≤ t + 29 := by
  simp only [snapHalfHour]
  split
  · omega
  · split <;> omega

/-- Cursor rounding lands on a half-hour boundary. -/
theorem snapHalfHour_mod (t : Nat) : snapHalfHour t % 30 = 0 := by
  simp only [snapHalfHour]
  split
  · omega
  · split <;> omega

/-- Cursor rounding is the identity on half-hour boundaries. -/
theorem snapHalfHour_eq (t : Nat) (h : t % 30 = 0) : snapHalfHour t = t := by
  simp only [snapHalfHour]
  rw [if_pos]
  omega

/-- The day-level skip strictly advances the cursor. -/
theorem nextDayStart_gt (t : Nat) : t < nextDayStart t := by
  simp only [nextDayStart, WORK_HOURS_START]
  omega

/-- The day-level skip lands on a half-hour boundary. -/
theorem nextDayStart_mod (t : Nat) : nextDayStart t % 30 = 0 := by
  simp only [nextDayStart, WORK_HOURS_START]
  omega

/-- Bounds invariant of the scan loop from a half-hour-aligned cursor:
a found slot lies at or after the cursor and strictly before the horizon. -/
theorem findNextGo_le_limit (provider : Int → Int → ProviderResp)
    (dur limit : Nat) :
    ∀ (fuel current s : Nat), current % 30 = 0 →
      findNextGo provider dur limit fuel current = some s →
      current ≤ s ∧ s < limit := by
  intro fuel
  induction fuel with
  | zero => intro current s _ h; simp [findNextGo] at h
  | succ fuel ih =>
    intro current s hmod h
    simp only [findNextGo] at h
    split at h
    · split at h
      · obtain ⟨h1, h2⟩ := ih _ _ (nextDayStart_mod _) h
        refine ⟨?_, h2⟩
        have hs := snapHalfHour_eq current hmod
        have := nextDayStart_gt (snapHalfHour current)
        omega
      · split at h
        · obtain ⟨h1, h2⟩ := ih _ _ (nextDayStart_mod _) h
          refine ⟨?_, h2⟩
          have hs := snapHalfHour_eq current hmod
          have := nextDayStart_gt (snapHalfHour current)
          omega
        · split at h
          · rcases Option.some_inj.mp h with rfl
            rw [snapHalfHour_eq current hmod]
            exact ⟨le_rfl, by assumption⟩
          · have hmod2 : (snapHalfHour current + 30) % 30 = 0 := by
              have := snapHalfHour_mod current
              omega
            obtain ⟨h1, h2⟩ := ih _ _ hmod2 h
            have := snapHalfHour_ge current
            exact ⟨by omega, h2⟩
    · simp at h

/-- Bounds for the scan started at an arbitrary instant (the first
iteration may round the cursor, all later cursors are half-hour aligned):
a found slot lies at or after the start and strictly before the horizon,
provided the horizon leaves room for the initial rounding. -/
theorem findNextGo_found_lt (provider : Int → Int → ProviderResp)
    (dur limit : Nat) (fuel now s : Nat) (hlim : now + 60 ≤ limit)
    (h : findNextGo provider dur limit fuel now = some s) :
    now ≤ s ∧ s < limit := by
  cases fuel with
  | zero => simp [findNextGo] at h
  | succ fuel =>
    simp only [findNextGo] at h
    split at h
    · split at h
      · obtain ⟨h1, h2⟩ := findNextGo_le_limit provider dur limit _ _ _ (nextDayStart_mod _) h
        have := snapHalfHour_ge now
        have := nextDayStart_gt (snapHalfHour now)
        exact ⟨by omega, h2⟩
      · split at h
        · obtain ⟨h1, h2⟩ := findNextGo_le_limit provider dur limit _ _ _ (nextDayStart_mod _) h
          have := snapHalfHour_ge now
          have := nextDayStart_gt (snapHalfHour now)
          exact ⟨by omega, h2⟩
        · split at h
          · rcases Option.some_inj.mp h with rfl
            have := snapHalfHour_ge now
            have := snapHalfHour_le now
            exact ⟨by omega, by omega⟩
          · have hmod2 : (snapHalfHour now + 30) % 30 = 0 := by
              have := snapHalfHour_mod now
              omega
            obtain ⟨h1, h2⟩ := findNextGo_le_limit provider dur limit _ _ _ hmod2 h
            have := snapHalfHour_ge now
            exact ⟨by omega, h2⟩
    · simp at h

/-- With a provider whose every list call fails, every availability check
is fail-closed busy, so the scan exhausts its horizon and reports no
slot. -/
theorem findNextGo_err_none (dur limit : Nat) :
    ∀ (fuel current : Nat),
      findNextGo (fun _ _ => ProviderResp.err) dur limit fuel current = none := by
  intro fuel
  induction fuel with
  | zero => intro current; rfl
  | succ fuel ih =>
    intro current
    simp [findNextGo, check_availability, ih]

/-- One-step unfolding of the suggestion scan with a positive fuel. -/
theorem suggestGo_succ (provider : Int → Int → ProviderResp) (dur e : Int)
    (fuel : Nat) (current : Int) (acc : List (Int × Int)) :
    suggestGo provider dur e (fuel + 1) current acc =
      if current + dur ≤ e then
        if 5 ≤ (if check_availability true provider (toUTC current) (toUTC (current + dur)) then
              acc ++ [(current, current + dur)] else acc).length then
          (if check_availability true provider (toUTC current) (toUTC (current + dur)) then
            acc ++ [(current, current + dur)] else acc)
        else
          suggestGo provider dur e fuel (current + 30)
            (if check_availability true provider (toUTC current) (toUTC (current + dur)) then
              acc ++ [(current, current + dur)] else acc)
      else acc := rfl

/-- Fuel adequacy for the suggestion scan: once the fuel dominates the
remaining iteration count, one more unit does not change the result, so
the fuel-indexed recursion computes the source's while loop. -/
theorem suggestGo_stable (provider : Int → Int → ProviderResp) (dur e : Int) :
    ∀ (fuel : Nat) (current : Int) (acc : List (Int × Int)),
      e - (current + dur) < 30 * (fuel : Int) →
      suggestGo provider dur e (fuel + 1) current acc =
        suggestGo provider dur e fuel current acc := by
  intro fuel
  induction fuel with
  | zero =>
    intro current acc hf
    rw [suggestGo_succ, if_neg (by push_cast at hf; omega)]
    rfl
  | succ fuel ih =>
    intro current acc hf
    rw [suggestGo_succ provider dur e (fuel + 1) current acc,
      suggestGo_succ provider dur e fuel current acc]
    by_cases hc : current + dur ≤ e
    · rw [if_pos hc, if_pos hc]
      by_cases hav : check_availability true provider (toUTC current) (toUTC (current + dur)) = true
      · simp only [if_pos hav]
        by_cases hlen : 5 ≤ (acc ++ [(current, current + dur)]).length
        · rw [if_pos hlen, if_pos hlen]
        · rw [if_neg hlen, if_neg hlen]
          exact ih _ _ (by push_cast at hf ⊢; omega)
      · simp only [if_neg hav]
        by_cases hlen : 5 ≤ acc.length
        · rw [if_pos hlen, if_pos hlen]
        · rw [if_neg hlen, if_neg hlen]
          exact ih _ _ (by push_cast at hf ⊢; omega)
    · rw [if_neg hc, if_neg hc]

/-- Fuel independence of the suggestion scan above the loop bound. -/
theorem suggestGo_fuel_irrel (provider : Int → Int → ProviderResp) (dur e : Int) :
    ∀ (k fuel : Nat) (current : Int) (acc : List (Int × Int)),
      e - (current + dur) < 30 * (fuel : Int) →
      suggestGo provider dur e (fuel + k) current acc =
        suggestGo provider dur e fuel current acc := by
  intro k
  induction k with
  | zero => intro fuel current acc _; rfl
  | succ k ih =>
    intro fuel current acc hf
    have h2 : fuel + (k + 1) = (fuel + k) + 1 := by omega
    rw [h2, suggestGo_stable provider dur e (fuel + k) current acc
      (by push_cast at hf ⊢; omega), ih fuel current acc hf]

/-- Faithfulness of the fuel chosen in `suggest_time_slots`: enlarging it
by any amount leaves the result unchanged, so it realizes the unbounded
while loop of the source. -/
theorem suggest_fuel_realizes_loop (provider : Int → Int → ProviderResp)
    (day : Nat) (dur : Int) (k : Nat) :
    suggestGo provider dur ((day * 1440 + WORK_HOURS_END * 60 : Nat) : Int)
        ((((day * 1440 + WORK_HOURS_END * 60 : Nat) : Int) - dur -
          ((day * 1440 + WORK_HOURS_START * 60 : Nat) : Int)).toNat / 30 + 1 + k)
        ((day * 1440 + WORK_HOURS_START * 60 : Nat) : Int) [] =
      suggest_time_slots true provider day dur := by
  rw [suggest_time_slots_true]
  refine suggestGo_fuel_irrel provider dur _ k _ _ [] ?_
  push_cast
  omega

/-- Fuel adequacy for the next-available scan: every iteration advances
the cursor by at least one minute, so fuel covering the minutes to the
horizon computes the source's while loop. -/
theorem findNextGo_stable (provider : Int → Int → ProviderResp)
    (dur limit : Nat) :
    ∀ (fuel current : Nat), limit - current ≤ fuel →
      findNextGo provider dur limit (fuel + 1) current =
        findNextGo provider dur limit fuel current := by
  intro fuel
  induction fuel with
  | zero =>
    intro current hf
    simp only [findNextGo]
    rw [if_neg (by omega)]
  | succ fuel ih =>
    intro current hf
    by_cases h1 : current < limit
    · simp only [findNextGo]
      rw [if_pos h1, if_pos h1]
      have hge := snapHalfHour_ge current
      have hnd := nextDayStart_gt (snapHalfHour current)
      split
      · exact ih _ (by omega)
      · split
        · exact ih _ (by omega)
        · split
          · rfl
          · exact ih _ (by omega)
    · simp only [findNextGo]
      rw [if_neg h1, if_neg h1]

/-- Fuel independence of the next-available scan above the loop bound. -/
theorem findNextGo_fuel_irrel (provider : Int → Int → ProviderResp)
    (dur limit : Nat) :
    ∀ (k fuel current : Nat), limit - current ≤ fuel →
      findNextGo provider dur limit (fuel + k) current =
        findNextGo provider dur limit fuel current := by
  intro k
  induction k with
  | zero => intro fuel current _; rfl
  | succ k ih =>
    intro fuel current hf
    have h2 : fuel + (k + 1) = (fuel + k) + 1 := by omega
    rw [h2, findNextGo_stable provider dur limit (fuel + k) current (by omega),
      ih fuel current hf]

/-- Faithfulness of the fuel chosen in `find_next_available_slot`:
enlarging it by any amount leaves the result unchanged, so it realizes the
unbounded while loop of the source. -/
theorem find_next_fuel_realizes_loop (provider : Int → Int → ProviderResp)
    (dur now k : Nat) :
    findNextGo provider dur (now + SEARCH_LIMIT_DAYS * 1440)
        (SEARCH_LIMIT_DAYS * 1440 + k) now =
      findNextGo provider dur (now + SEARCH_LIMIT_DAYS * 1440)
        (SEARCH_LIMIT_DAYS * 1440) now :=
  findNextGo_fuel_irrel provider dur _ k _ now (by simp [SEARCH_LIMIT_DAYS])

/-- Claim C1: for every time range (and calendar), the availability check
returns true if and only if the provider reports an empty event set for
that range, and a provider call that fails with an error yields false
(fail-closed); the error is absorbed, not raised — the embedding maps
every provider outcome, including the raised exception, to a boolean. -/
theorem spec_c1 (provider : Int → Int → ProviderResp) (lo hi : Int) :
    (check_availability true provider lo hi = true ↔
      provider lo hi = ProviderResp.ok []) ∧
    check_availability true (fun _ _ => ProviderResp.err) lo hi = false := by
  constructor
  · simp only [check_availability, if_pos]
    cases h : provider lo hi with
    | ok items => simp [List.length_eq_zero]
    | err => simp
  · rfl

/-- Claim C2 counterexample: a single booking whose duration is zero — so
its time range has start = end — is not rejected: `book_appointment` (for
a connected, validated service with a parsed start of minute 600, local
19:30 Monday in UTC 270) issues exactly one availability query to the
provider, with the degenerate UTC range (270, 270). -/
theorem spec_c2_counterexample :
    (book_appointment true true (some 600) 0 (busyProvider [])
      (fun _ _ => some 0)).avail_queries = [(270, 270)] := by decide

/-- Claim C2 as amended: no operation validates that start < end — once
the non-range guards pass (service connected, access validated, start time
parsed), `book_appointment` always issues the availability query for the
UTC image of [start, start + duration), including when a zero or negative
duration makes start ≥ end. -/
theorem spec_c2_amended (t dur : Int) (provider : Int → Int → ProviderResp)
    (insert : Int → Int → Option Nat) :
    (book_appointment true true (some t) dur provider insert).avail_queries =
      [(toUTC t, toUTC (t + dur))] := by
  simp only [book_appointment, if_pos]
  cases hav : check_availability true provider (toUTC t) (toUTC (t + dur))
  · simp [hav]
  · cases hins : create_event true insert (toUTC t) (toUTC (t + dur))
    · simp [hav, hins]
    · simp [hav, hins]

/-- Claim C3, evaluated at the failing input: with a fully free calendar,
now = Monday 00:00 and duration 1440 minutes, the scan returns the slot
starting at minute 1980 (Tuesday 09:00, a weekday within working hours),
but the slot's end, 1980 + 1440 (Wednesday 09:00), exceeds 17:00 of the
slot's own day — the source's end-of-day test inspects only the end's
clock hour and minute, so a slot crossing midnight slips through,
contradicting the comment `Check if meeting would end after work hours`. -/
theorem spec_c3_eval :
    find_next_available_slot true true (busyProvider []) 1440 0 =
      FindResult.found 1980 ∧
    1980 / 1440 * 1440 + WORK_HOURS_END * 60 < 1980 + 1440 :=
  ⟨by decide, by decide⟩

/-- Claim C4: for every local day, duration and seeded busy calendar,
`suggest_time_slots` returns at most 5 slots; every instant of a returned
slot lies inside the working window [9:00, 17:00) of that day; and no
returned slot shares an instant with any busy interval the provider
reports (busy intervals are UTC, compared in local clock through the
fixed offset). -/
theorem spec_c4 (day : Nat) (dur : Int) (busy : List (Int × Int)) :
    (suggest_time_slots true (busyProvider busy) day dur).length ≤ 5 ∧
    (∀ s ∈ suggest_time_slots true (busyProvider busy) day dur, ∀ t : Int,
      s.1 ≤ t → t < s.2 →
        ((day * 1440 + WORK_HOURS_START * 60 : Nat) : Int) ≤ t ∧
        t < ((day * 1440 + WORK_HOURS_END * 60 : Nat) : Int)) ∧
    (∀ s ∈ suggest_time_slots true (busyProvider busy) day dur, ∀ b ∈ busy,
      ¬∃ t : Int, (s.1 ≤ t ∧ t < s.2) ∧
        (b.1 + TZ_OFFSET_MIN ≤ t ∧ t < b.2 + TZ_OFFSET_MIN)) := by
  have hsound : ∀ s ∈ suggest_time_slots true (busyProvider busy) day dur,
      SlotOk busy ((day * 1440 + WORK_HOURS_START * 60 : Nat) : Int)
        ((day * 1440 + WORK_HOURS_END * 60 : Nat) : Int) dur s := by
    intro s hs
    rw [suggest_time_slots_true] at hs
    exact suggestGo_sound busy dur _ _ _ _ [] le_rfl (by simp) s hs
  refine ⟨?_, ?_, ?_⟩
  · rw [suggest_time_slots_true]
    exact suggestGo_length_le (busyProvider busy) dur _ _ _ [] (by simp)
  · intro s hs t ht1 ht2
    obtain ⟨h1, h2, h3, _⟩ := hsound s hs
    exact ⟨by omega, by omega⟩
  · intro s hs b hb hex
    obtain ⟨h1, h2, h3, h4⟩ := hsound s hs
    obtain ⟨t, ⟨hts1, hts2⟩, ⟨htb1, htb2⟩⟩ := hex
    refine h4 b hb ?_
    simp only [toUTC, TZ_OFFSET_MIN] at *
    omega

/-- Claim C4 witness: on day 0 with duration 60 and one distant busy
interval, the slot 9:00–10:00 is among the suggestions, and by `spec_c4`
it does not overlap the seeded busy interval. -/
theorem spec_c4_witness :
    ((540 : Int), (600 : Int)) ∈
      suggest_time_slots true (busyProvider [((10000 : Int), (20000 : Int))]) 0 60 ∧
    ¬∃ t : Int, (((540 : Int), (600 : Int)).1 ≤ t ∧ t < ((540 : Int), (600 : Int)).2) ∧
      (((10000 : Int), (20000 : Int)).1 + TZ_OFFSET_MIN ≤ t ∧
       t < ((10000 : Int), (20000 : Int)).2 + TZ_OFFSET_MIN) :=
  ⟨by decide,
   (spec_c4 0 60 [((10000 : Int), (20000 : Int))]).2.2
     ((540 : Int), (600 : Int)) (by decide)
     ((10000 : Int), (20000 : Int)) (by decide)⟩

/-- Claim C5: `generate_recurring_dates` visits every calendar date from
the start to the end date inclusive in ascending order and emits exactly
one occurrence for a date iff its weekday is in the weekday set — the
emitted dates are exactly the ascending range filtered by the weekday
set — and with weekdays {Tuesday, Thursday} over a 2-week window (days
0..13 from a Monday) it produces exactly 4 occurrences, in strictly
ascending date order by the preceding conjunct. -/
theorem spec_c5 (s e : Nat) (wds : List Nat) (st et : Nat) :
    (generate_recurring_dates s e wds st et).map Occ.date =
      (List.range' s (e + 1 - s)).filter (fun x => decide (x % 7 ∈ wds)) ∧
    List.Pairwise (· < ·) ((generate_recurring_dates s e wds st et).map Occ.date) ∧
    (generate_recurring_dates 0 13 [1, 3] st et).length = 4 := by
  refine ⟨generateGo_map_date wds st et _ s, ?_, rfl⟩
  rw [generate_recurring_dates, generateGo_map_date wds st et _ s]
  exact List.Pairwise.sublist (List.filter_sublist _) (List.pairwise_lt_range' s (e + 1 - s))

/-- Claim C6: `create_multiple_events` processes the occurrences
independently in input order — the two result lists are the
order-preserving filterings of the input by per-occurrence outcomes, each
a function of that occurrence alone, so a failed availability check or a
failed creation of one occurrence never affects the processing of the
later ones. -/
theorem spec_c6 (provider : Int → Int → ProviderResp)
    (insert : Int → Int → Option Nat) (occs : List Occ) :
    create_multiple_events provider insert occs =
      (occs.filterMap (occCreated provider insert),
       occs.filterMap (occFailed provider insert)) :=
  cme_filterMap provider insert occs

/-- Claim C7: when the final availability re-check of `book_appointment`
reports the range unavailable, the result is the not-available failure and
no event-creation call is issued to the provider. -/
theorem spec_c7 (t dur : Int) (provider : Int → Int → ProviderResp)
    (insert : Int → Int → Option Nat)
    (h : check_availability true provider (toUTC t) (toUTC (t + dur)) = false) :
    (book_appointment true true (some t) dur provider insert).result =
      BookResult.errNotAvailable ∧
    (book_appointment true true (some t) dur provider insert).create_calls = [] := by
  simp [book_appointment, h]

/-- Claim C7 witness: with a provider whose list call fails (so the
re-check is fail-closed false), booking minute 600 for 60 minutes returns
the not-available failure. -/
theorem spec_c7_witness :
    check_availability true (fun _ _ => ProviderResp.err) (toUTC 600) (toUTC (600 + 60)) = false ∧
    (book_appointment true true (some 600) 60 (fun _ _ => ProviderResp.err)
      (fun _ _ => some 0)).result = BookResult.errNotAvailable :=
  ⟨by decide, (spec_c7 600 60 (fun _ _ => ProviderResp.err) (fun _ _ => some 0) (by decide)).1⟩

/-- Claim C8 counterexample: a recurring request whose daily start (18:00,
minute 1080) is after its daily end (09:00, minute 540) is not rejected:
with Mondays over days 0..7 on a free calendar, the operation generates 2
occurrences, books both, and reports success. -/
theorem spec_c8_counterexample :
    (book_recurring_appointment true true (some 7) [0] (some 1080) (some 540) 0
      (busyProvider []) (fun _ _ => some 1)).generated.length = 2 ∧
    (book_recurring_appointment true true (some 7) [0] (some 1080) (some 540) 0
      (busyProvider []) (fun _ _ => some 1)).created_events.length = 2 ∧
    (book_recurring_appointment true true (some 7) [0] (some 1080) (some 540) 0
      (busyProvider []) (fun _ _ => some 1)).result = RecurResult.success :=
  ⟨by decide, by decide, by decide⟩

/-- Claim C8 as amended: the recurring-booking operation enforces the
non-empty-weekdays part of the RecurrenceSpec invariant — an empty parsed
weekday set is rejected before any occurrence is generated or booked — but
it does not enforce dailyStart < dailyEnd: a request whose daily start is
not before its daily end proceeds to generate and book occurrences (here 2
of them) whose end precedes their start. -/
theorem spec_c8_amended :
    (∀ (service access : Bool) (ed : Option Nat) (st et : Option Nat)
        (today : Nat) (provider : Int → Int → ProviderResp)
        (insert : Int → Int → Option Nat),
      (book_recurring_appointment service access ed [] st et today provider
        insert).generated = [] ∧
      (book_recurring_appointment service access ed [] st et today provider
        insert).created_events = []) ∧
    (book_recurring_appointment true true (some 7) [0] (some 1080) (some 540) 0
      (busyProvider []) (fun _ _ => some 1)).generated.length = 2 := by
  constructor
  · intro service access ed st et today provider insert
    cases service
    · exact ⟨rfl, rfl⟩
    · cases access
      · exact ⟨rfl, rfl⟩
      · cases ed
        · exact ⟨rfl, rfl⟩
        · simp [book_recurring_appointment]
  · decide

/-- Claim C9: for every start instant, duration and provider behaviour,
the scan of `find_next_available_slot` (a total function in this
embedding — its loop advances the cursor every iteration and stops at the
horizon) either reports the negative not-found result or returns a slot
starting within the 30-day horizon; and with a provider whose every call
fails (everything fail-closed busy), exhausting the horizon yields the
not-found result, not an error. -/
theorem spec_c9 (now dur : Nat) (provider : Int → Int → ProviderResp) :
    (find_next_available_slot true true provider dur now = FindResult.notFound ∨
      ∃ s, find_next_available_slot true true provider dur now = FindResult.found s ∧
        now ≤ s ∧ s < now + SEARCH_LIMIT_DAYS * 1440) ∧
    find_next_available_slot true true (fun _ _ => ProviderResp.err) dur now =
      FindResult.notFound := by
  constructor
  · cases hgo : findNextGo provider dur (now + SEARCH_LIMIT_DAYS * 1440)
        (SEARCH_LIMIT_DAYS * 1440) now with
    | none => left; simp [find_next_available_slot, hgo]
    | some s =>
      right
      refine ⟨s, by simp [find_next_available_slot, hgo], ?_⟩
      refine findNextGo_found_lt provider dur _ _ _ _ ?_ hgo
      simp [SEARCH_LIMIT_DAYS]
  · simp [find_next_available_slot, findNextGo_err_none]

/-- Claim C10: on an initialized calendar service,
`create_multiple_events` partitions its input — every input occurrence
lands in exactly one of the two output lists, so the lengths of created
and failed add up to the number of input occurrences. -/
theorem spec_c10 (provider : Int → Int → ProviderResp)
    (insert : Int → Int → Option Nat) (occs : List Occ) :
    (create_multiple_events provider insert occs).1.length +
      (create_multiple_events provider insert occs).2.length = occs.length := by
  induction occs with
  | nil => rfl
  | cons o rest ih =>
    simp only [create_multiple_events]
    cases hav : check_availability true provider o.start_utc o.end_utc
    · simp only [Bool.false_eq_true, if_false, List.length_cons]
      omega
    · cases hins : create_event true insert o.start_utc o.end_utc
      · simp only [if_true, hins, List.length_cons]
        omega
      · simp only [if_true, hins, List.length_cons]
        omega

end Kautios
